import Mathlib

/-!
Verification of the astro-starter repository's form-validation and
feed/OG-image pipelines, shallowly embedded from the TypeScript source.

Strings from the JavaScript side are modelled as `List Char`; JS string
`length` is the list length, and the regexes of `src/components/ContactForm.tsx`
are embedded as executable character-class matchers.
-/

namespace AstroStarter

/-- ASCII letter, the `[a-zA-Z]` character class. -/
def isAsciiAlpha (c : Char) : Bool :=
  ('a' ≤ c && c ≤ 'z') || ('A' ≤ c && c ≤ 'Z')

/-- ASCII digit, the `[0-9]` character class. -/
def isAsciiDigit (c : Char) : Bool :=
  '0' ≤ c && c ≤ '9'

/-- JavaScript whitespace: the characters matched by the regex class `\s`
and stripped by `String.prototype.trim` (WhiteSpace ∪ LineTerminator). -/
def jsWhitespace (c : Char) : Bool :=
  c = '\t' || c = '\n' || c = '\x0b' || c = '\x0c' || c = '\r' || c = ' ' ||
  c = '\u00A0' || c = '\u1680' || ('\u2000' ≤ c && c ≤ '\u200A') ||
  c = '\u2028' || c = '\u2029' || c = '\u202F' || c = '\u205F' ||
  c = '\u3000' || c = '\uFEFF'

/-- JavaScript `value.trim()`: strip leading and trailing whitespace. -/
def jsTrim (s : List Char) : List Char :=
  ((s.dropWhile jsWhitespace).reverse.dropWhile jsWhitespace).reverse

/-- Character class of the name pattern `/^[a-zA-Z\s'-]+$/` in
`VALIDATION.name.pattern` (ContactForm.tsx line 52). -/
def nameChar (c : Char) : Bool :=
  isAsciiAlpha c || jsWhitespace c || c = '\'' || c = '-'

/-- The character set named by the specification for names: letters, the
space character, apostrophe and hyphen (no other whitespace). -/
def specNameChar (c : Char) : Bool :=
  isAsciiAlpha c || c = ' ' || c = '\'' || c = '-'

/-- The `name` branch of `validateField` (ContactForm.tsx lines 200-208):
required after trim, length in [2,100], then the name pattern. A regex
`/^[C]+$/` test is: non-empty and every character in class `C`. -/
def validateName (value : List Char) : Option String :=
  if jsTrim value = [] then some "Name is required"
  else if value.length < 2 then some "Name must be at least 2 characters"
  else if value.length > 100 then some "Name must be less than 100 characters"
  else if !(!value.isEmpty && value.all nameChar) then some "Please enter a valid name"
  else none

/-- Character class `[a-zA-Z0-9._%+-]` of the email local part
(`VALIDATION.email.pattern`, ContactForm.tsx line 55). -/
def localChar (c : Char) : Bool :=
  isAsciiAlpha c || isAsciiDigit c || c = '.' || c = '_' || c = '%' || c = '+' || c = '-'

/-- Character class `[a-zA-Z0-9.-]` of the email domain part. -/
def domainChar (c : Char) : Bool :=
  isAsciiAlpha c || isAsciiDigit c || c = '.' || c = '-'

/-- Split a list at the first occurrence of character `c`: returns the parts
strictly before and strictly after it, or `none` when `c` does not occur. -/
def splitFirst (c : Char) : List Char → Option (List Char × List Char)
  | [] => none
  | x :: xs =>
    if x = c then some ([], xs)
    else
      match splitFirst c xs with
      | none => none
      | some (a, b) => some (x :: a, b)

/-- Split a list at the last occurrence of character `c`. -/
def splitLast (c : Char) (s : List Char) : Option (List Char × List Char) :=
  match splitFirst c s.reverse with
  | none => none
  | some (a, b) => some (b.reverse, a.reverse)

/-- The email regex `/^[a-zA-Z0-9._%+-]+@[a-zA-Z0-9.-]+\.[a-zA-Z]{2,}$/`
(ContactForm.tsx line 55). Because the local class excludes `@` the match
splits at the first `@`, and because the trailing `[a-zA-Z]{2,}$` excludes
dots the final `\.` is the last dot of the remainder; so the test is
equivalent to this deterministic decomposition. -/
def emailMatch (s : List Char) : Bool :=
  match splitFirst '@' s with
  | none => false
  | some (l, rest) =>
    match splitLast '.' rest with
    | none => false
    | some (d, t) =>
      !l.isEmpty && l.all localChar && !d.isEmpty && d.all domainChar &&
        decide (2 ≤ t.length) && t.all isAsciiAlpha

/-- The `email` branch of `validateField` (ContactForm.tsx lines 210-214). -/
def validateEmail (value : List Char) : Option String :=
  if jsTrim value = [] then some "Email is required"
  else if !emailMatch value then some "Please enter a valid email address"
  else none

/-- The `message` branch of `validateField` (ContactForm.tsx lines 216-222):
required after trim, length in [10,2000]. -/
def validateMessage (value : List Char) : Option String :=
  if jsTrim value = [] then some "Message is required"
  else if value.length < 10 then some "Message must be at least 10 characters"
  else if value.length > 2000 then some "Message must be less than 2000 characters"
  else none

/-- The final dot-separated segment of a string: everything after the last
dot, or the whole string when it has no dot (the "top-level-domain segment"
the specification speaks about). -/
def tldSegment (s : List Char) : List Char :=
  match splitLast '.' s with
  | none => s
  | some (_, t) => t

theorem splitFirst_eq_none {c : Char} : ∀ {s : List Char}, c ∉ s → splitFirst c s = none
  | [], _ => rfl
  | x :: xs, h => by
    have hx : x ≠ c := fun he => h (he ▸ List.mem_cons_self x xs)
    have ih := splitFirst_eq_none (s := xs) (fun hm => h (List.mem_cons_of_mem x hm))
    simp [splitFirst, hx, ih]

theorem splitFirst_eq_some {c : Char} :
    ∀ {s a b : List Char}, splitFirst c s = some (a, b) → s = a ++ c :: b ∧ c ∉ a
  | [], a, b, h => by simp [splitFirst] at h
  | x :: xs, a, b, h => by
    by_cases hx : x = c
    · simp only [splitFirst, if_pos hx, Option.some.injEq, Prod.mk.injEq] at h
      obtain ⟨ha, hb⟩ := h
      subst hx; subst hb
      simp [← ha]
    · simp only [splitFirst, if_neg hx] at h
      cases hsf : splitFirst c xs with
      | none => rw [hsf] at h; exact absurd h (by simp)
      | some p =>
        obtain ⟨a', b'⟩ := p
        rw [hsf] at h
        simp only [Option.some.injEq, Prod.mk.injEq] at h
        obtain ⟨ha, hb⟩ := h
        obtain ⟨hs, hc⟩ := splitFirst_eq_some hsf
        subst hb
        refine ⟨?_, ?_⟩
        · rw [← ha, hs]; simp
        · rw [← ha]
          simp only [List.mem_cons, not_or]
          exact ⟨fun he => hx he.symm, hc⟩

theorem splitFirst_append {c : Char} :
    ∀ {a : List Char} (b : List Char), c ∉ a → splitFirst c (a ++ c :: b) = some (a, b)
  | [], b, _ => by simp [splitFirst]
  | x :: a, b, h => by
    have hx : x ≠ c := fun he => h (he ▸ List.mem_cons_self x a)
    have ih := splitFirst_append (a := a) b (fun hm => h (List.mem_cons_of_mem x hm))
    simp [splitFirst, hx, ih]

theorem splitLast_eq_some {c : Char} {s d t : List Char}
    (h : splitLast c s = some (d, t)) : s = d ++ c :: t ∧ c ∉ t := by
  unfold splitLast at h
  cases hsf : splitFirst c s.reverse with
  | none => rw [hsf] at h; exact absurd h (by simp)
  | some p =>
    obtain ⟨a, b⟩ := p
    rw [hsf] at h
    simp only [Option.some.injEq, Prod.mk.injEq] at h
    obtain ⟨hd, ht⟩ := h
    obtain ⟨hs, hc⟩ := splitFirst_eq_some hsf
    refine ⟨?_, ?_⟩
    · have h2 : s.reverse.reverse = (a ++ c :: b).reverse := congrArg List.reverse hs
      rw [List.reverse_reverse] at h2
      rw [h2, ← hd, ← ht]
      simp
    · rw [← ht]
      simpa using hc

theorem splitLast_append {c : Char} {d t : List Char} (h : c ∉ t) :
    splitLast c (d ++ c :: t) = some (d, t) := by
  unfold splitLast
  have h1 : (d ++ c :: t).reverse = t.reverse ++ c :: d.reverse := by simp
  have h2 : c ∉ t.reverse := by simpa using h
  rw [h1, splitFirst_append d.reverse h2]
  simp

theorem emailMatch_no_at {s : List Char} (h : '@' ∉ s) : emailMatch s = false := by
  unfold emailMatch
  rw [splitFirst_eq_none h]

theorem emailMatch_decomp {s : List Char} (h : emailMatch s = true) :
    ∃ l d t, s = l ++ '@' :: (d ++ '.' :: t) ∧ l ≠ [] ∧ l.all localChar = true ∧
      d ≠ [] ∧ d.all domainChar = true ∧ 2 ≤ t.length ∧ t.all isAsciiAlpha = true ∧
      '.' ∉ t := by
  unfold emailMatch at h
  cases h1 : splitFirst '@' s with
  | none => rw [h1] at h; exact absurd h (by simp)
  | some p =>
    obtain ⟨l, rest⟩ := p
    rw [h1] at h
    dsimp only at h
    cases h2 : splitLast '.' rest with
    | none => rw [h2] at h; exact absurd h (by simp)
    | some q =>
      obtain ⟨d, t⟩ := q
      rw [h2] at h
      dsimp only at h
      simp only [Bool.and_eq_true, Bool.not_eq_true', List.isEmpty_eq_false,
        decide_eq_true_eq, List.all_eq_true] at h
      obtain ⟨⟨⟨⟨⟨hl1, hl2⟩, hd1⟩, hd2⟩, ht1⟩, ht2⟩ := h
      obtain ⟨hs1, _⟩ := splitFirst_eq_some h1
      obtain ⟨hs2, hdot⟩ := splitLast_eq_some h2
      refine ⟨l, d, t, by rw [hs1, hs2], hl1, ?_, hd1, ?_, ht1, ?_, hdot⟩
      · exact List.all_eq_true.mpr hl2
      · exact List.all_eq_true.mpr hd2
      · exact List.all_eq_true.mpr ht2

theorem tld_of_emailMatch {s : List Char} (h : emailMatch s = true) :
    2 ≤ (tldSegment s).length := by
  obtain ⟨l, d, t, hs, _, _, _, _, ht, _, hdot⟩ := emailMatch_decomp h
  have h2 : s = (l ++ '@' :: d) ++ '.' :: t := by rw [hs]; simp
  rw [tldSegment, h2, splitLast_append hdot]
  exact ht

theorem specNameChar_sub {c : Char} (h : specNameChar c = true) : nameChar c = true := by
  simp only [specNameChar, Bool.or_eq_true, decide_eq_true_eq] at h
  simp only [nameChar, jsWhitespace, Bool.or_eq_true, decide_eq_true_eq]
  tauto

/-- C1 counterexample: the name "a⟨tab⟩b" contains a tab, a character outside
letters, space, apostrophe and hyphen, yet `validateField` returns no error
for it, because the source pattern `/^[a-zA-Z\s'-]+$/` accepts every
whitespace character via `\s`, not just the space character. -/
theorem name_validator_space_counterexample :
    (['a', '\t', 'b']).all specNameChar = false ∧
      validateName ['a', '\t', 'b'] = none := by
  decide

/-- C1 (amended): any input of fewer than 2 characters, or containing a
character outside letters, whitespace, apostrophe and hyphen, draws an error
from the name validator; any 2-to-100-character input that is non-empty after
trim and uses only letters, the space character, apostrophe and hyphen
passes with no error. -/
theorem name_validator_correct (value : List Char) :
    (value.length < 2 → (validateName value).isSome = true) ∧
    (value.all nameChar = false → (validateName value).isSome = true) ∧
    (jsTrim value ≠ [] → 2 ≤ value.length → value.length ≤ 100 →
      value.all specNameChar = true → validateName value = none) := by
  refine ⟨?_, ?_, ?_⟩
  · intro h
    unfold validateName
    split_ifs <;> simp_all
  · intro h
    unfold validateName
    split_ifs with h1 h2 h3 h4 <;> try simp
    exact absurd (by simp [h]) h4
  · intro h1 h2 h3 h4
    have hne : value ≠ [] := by
      intro he; rw [he] at h2; simp at h2
    have hall : value.all nameChar = true := by
      rw [List.all_eq_true] at h4 ⊢
      exact fun c hc => specNameChar_sub (h4 c hc)
    unfold validateName
    rw [if_neg h1, if_neg (by omega), if_neg (by omega), if_neg]
    simp [hall, List.isEmpty_iff, hne]

/-- Closed instance of the proved name-validator theorem: "Jo" passes with no
error, and the one-character input "J" draws an error. -/
theorem name_validator_correct_witness :
    validateName ['J', 'o'] = none ∧ (validateName ['J']).isSome = true :=
  ⟨(name_validator_correct ['J', 'o']).2.2 (by decide) (by decide) (by decide) (by decide),
    (name_validator_correct ['J']).1 (by decide)⟩

/-- C2: a string without an at-sign, or whose final dot-separated segment is
shorter than 2 characters, draws an error from the email validator; and an
email passes (no error) only when it is non-empty and decomposes as
local@domain.tld with non-empty local and domain parts in the allowed
character classes and a top-level domain of at least 2 letters. -/
theorem email_validator_correct (value : List Char) :
    ('@' ∉ value → (validateEmail value).isSome = true) ∧
    ((tldSegment value).length < 2 → (validateEmail value).isSome = true) ∧
    (validateEmail value = none →
      value ≠ [] ∧ ∃ l d t, value = l ++ '@' :: (d ++ '.' :: t) ∧ l ≠ [] ∧
        l.all localChar = true ∧ d ≠ [] ∧ d.all domainChar = true ∧
        2 ≤ t.length ∧ t.all isAsciiAlpha = true) := by
  refine ⟨?_, ?_, ?_⟩
  · intro h
    unfold validateEmail
    split_ifs with h1 h2 <;> try simp
    rw [Bool.not_eq_true', Bool.not_eq_false] at h2
    rw [emailMatch_no_at h] at h2
    exact absurd h2 (by simp)
  · intro h
    unfold validateEmail
    split_ifs with h1 h2 <;> try simp
    rw [Bool.not_eq_true', Bool.not_eq_false] at h2
    exact absurd (tld_of_emailMatch h2) (by omega)
  · intro h
    unfold validateEmail at h
    split_ifs at h with h1 h2
    rw [Bool.not_eq_true', Bool.not_eq_false] at h2
    have hne : value ≠ [] := by
      intro he; rw [he] at h1; exact h1 rfl
    obtain ⟨l, d, t, hs, hl1, hl2, hd1, hd2, ht1, ht2, _⟩ := emailMatch_decomp h2
    exact ⟨hne, l, d, t, hs, hl1, hl2, hd1, hd2, ht1, ht2⟩

/-- Closed instance of the proved email-validator theorem: "a" (no at-sign)
and "a@b.c" (one-letter top-level domain) both draw an error. -/
theorem email_validator_correct_witness :
    (validateEmail ['a']).isSome = true ∧
      (validateEmail ['a', '@', 'b', '.', 'c']).isSome = true :=
  ⟨(email_validator_correct ['a']).1 (by decide),
    (email_validator_correct ['a', '@', 'b', '.', 'c']).2.1 (by decide)⟩

/-- Site metadata from `src/data/site.ts` used by the feed and OG endpoints. -/
def SITE_title : String := "YOUR BUSINESS NAME"

/-- The fallback author name `SITE.author` from `src/data/site.ts`. -/
def SITE_author : String := "Your Name"

/-- The site URL `SITE.url` from `src/data/site.ts`. -/
def SITE_url : String := "https://yourdomain.com"

/-- The site tagline `SITE.tagline` from `src/data/site.ts`. -/
def SITE_tagline : String :=
  "Your compelling tagline goes here. Keep it short and focused on your value proposition."

/-- A blog post record as the feed endpoint `src/pages/feed.xml.ts` consumes
it. `date` is the JavaScript timestamp `new Date(data.date).getTime()` in
milliseconds; optional frontmatter fields are `Option`s. -/
structure PostRecord where
  slug : String
  title : String
  date : Int
  excerpt : Option String
  description : Option String
  categories : Option (List String)
  author : Option String
  draft : Bool
deriving DecidableEq

/-- A feed item as passed to the `rss` helper (feed.xml.ts lines 42-53). -/
structure FeedItem where
  title : String
  pubDate : Int
  description : String
  link : String
  categories : List String
  author : String
deriving DecidableEq

/-- The per-post mapping of feed.xml.ts lines 42-53: `excerpt ?? description
?? ''` for the description, `/blog/slug/` link, `categories ?? []`, and
`author ?? SITE.author`. -/
def toFeedItem (post : PostRecord) : FeedItem :=
  { title := post.title
    pubDate := post.date
    description := post.excerpt.getD (post.description.getD "")
    link := "/blog/" ++ post.slug ++ "/"
    categories := post.categories.getD []
    author := post.author.getD SITE_author }

/-- The draft filter of feed.xml.ts lines 25-28: in production keep only
posts with `draft !== true`, otherwise keep everything. -/
def draftFilter (isProduction : Bool) (posts : List PostRecord) : List PostRecord :=
  if isProduction then posts.filter (fun p => !p.draft) else posts

/-- Stable insertion of a post into a date-descending list: the new element
goes before the first element whose date is not greater than its own, so an
element inserted later never overtakes an equal-dated element inserted
earlier. -/
def insertDesc (p : PostRecord) : List PostRecord → List PostRecord
  | [] => [p]
  | q :: qs => if q.date > p.date then q :: insertDesc p qs else p :: q :: qs

/-- The sort of feed.xml.ts lines 31-33, `(a, b) => b.date - a.date`:
JavaScript `Array.prototype.sort` is specified stable, so the result is the
stable date-descending ordering, modelled by stable insertion sort. -/
def sortByDateDesc : List PostRecord → List PostRecord
  | [] => []
  | p :: ps => insertDesc p (sortByDateDesc ps)

/-- The list of posts the feed serializes, in feed order: drafts filtered by
build mode, then sorted date-descending. -/
def feedPosts (posts : List PostRecord) (isProduction : Bool) : List PostRecord :=
  sortByDateDesc (draftFilter isProduction posts)

/-- The feed builder of feed.xml.ts `GET`: filter drafts by build mode, sort
date-descending, map every post to its feed item. -/
def buildFeed (posts : List PostRecord) (isProduction : Bool) : List FeedItem :=
  (feedPosts posts isProduction).map toFeedItem

theorem mem_insertDesc {p q : PostRecord} :
    ∀ {l : List PostRecord}, q ∈ insertDesc p l ↔ q = p ∨ q ∈ l
  | [] => by simp [insertDesc]
  | r :: rs => by
    by_cases h : r.date > p.date
    · simp only [insertDesc, if_pos h, List.mem_cons, mem_insertDesc (l := rs)]
      tauto
    · simp only [insertDesc, if_neg h, List.mem_cons]

theorem mem_sortByDateDesc {q : PostRecord} :
    ∀ {l : List PostRecord}, q ∈ sortByDateDesc l ↔ q ∈ l
  | [] => Iff.rfl
  | p :: ps => by
    simp [sortByDateDesc, mem_insertDesc, mem_sortByDateDesc (l := ps)]

theorem pairwise_insertDesc {p : PostRecord} :
    ∀ {l : List PostRecord}, List.Pairwise (fun x y => y.date ≤ x.date) l →
      List.Pairwise (fun x y => y.date ≤ x.date) (insertDesc p l)
  | [], _ => by simp [insertDesc]
  | q :: qs, h => by
    rw [List.pairwise_cons] at h
    obtain ⟨hq, hqs⟩ := h
    by_cases hd : q.date > p.date
    · simp only [insertDesc, if_pos hd]
      rw [List.pairwise_cons]
      refine ⟨?_, pairwise_insertDesc hqs⟩
      intro a ha
      rcases mem_insertDesc.mp ha with rfl | ha
      · exact le_of_lt hd
      · exact hq a ha
    · simp only [insertDesc, if_neg hd]
      rw [List.pairwise_cons]
      have hpq : q.date ≤ p.date := le_of_not_lt hd
      refine ⟨?_, List.pairwise_cons.mpr ⟨hq, hqs⟩⟩
      intro a ha
      rcases List.mem_cons.mp ha with rfl | ha
      · exact hpq
      · exact le_trans (hq a ha) hpq

theorem pairwise_sortByDateDesc :
    ∀ (l : List PostRecord), List.Pairwise (fun x y => y.date ≤ x.date) (sortByDateDesc l)
  | [] => List.Pairwise.nil
  | _ :: ps => pairwise_insertDesc (pairwise_sortByDateDesc ps)

theorem filter_insertDesc (p : PostRecord) (d : Int) (l : List PostRecord) :
    (insertDesc p l).filter (fun q => decide (q.date = d)) =
      if p.date = d then p :: l.filter (fun q => decide (q.date = d))
      else l.filter (fun q => decide (q.date = d)) := by
  induction l with
  | nil => by_cases h : p.date = d <;> simp [insertDesc, h]
  | cons q qs ih =>
    simp only [insertDesc]
    by_cases hd : q.date > p.date
    · rw [if_pos hd]
      by_cases hq : q.date = d
      · have hp : ¬ p.date = d := by omega
        simp [List.filter_cons, hq, hp, ih]
      · simp [List.filter_cons, hq, ih]
    · rw [if_neg hd]
      by_cases hp : p.date = d <;> simp [List.filter_cons, hp]

theorem filter_sortByDateDesc (d : Int) (l : List PostRecord) :
    (sortByDateDesc l).filter (fun q => decide (q.date = d)) =
      l.filter (fun q => decide (q.date = d)) := by
  induction l with
  | nil => rfl
  | cons p ps ih =>
    simp only [sortByDateDesc]
    rw [filter_insertDesc]
    by_cases hp : p.date = d <;> simp [List.filter_cons, hp, ih]

/-- A non-draft post dated 2024-01-01 (timestamp in ms), with a description
but no excerpt and no categories or author frontmatter. -/
def postJan2024 : PostRecord :=
  { slug := "new-year", title := "January Post", date := 1704067200000,
    excerpt := none, description := some "January post", categories := none,
    author := none, draft := false }

/-- A non-draft post dated 2024-03-15 (timestamp in ms). -/
def postMar2024 : PostRecord :=
  { slug := "march-post", title := "March Post", date := 1710460800000,
    excerpt := some "March excerpt", description := none,
    categories := some ["updates"], author := some "Jane", draft := false }

/-- A non-draft post dated 2024-06-15 (timestamp in ms). -/
def postJun2024 : PostRecord :=
  { slug := "june-post", title := "June Post", date := 1718409600000,
    excerpt := some "June excerpt", description := none,
    categories := some ["news"], author := some "Jane", draft := false }

/-- A draft post. -/
def postDraft : PostRecord :=
  { slug := "draft-post", title := "Draft Post", date := 1704067200000,
    excerpt := none, description := none, categories := none,
    author := none, draft := true }

/-- C3: a post with `draft = true` never appears among the posts of the
production feed, every input post appears in the non-production feed (and
its item in the built feed), and every post of the production feed has
`draft = false`. -/
theorem draft_excluded_production (posts : List PostRecord) (p : PostRecord) :
    (p.draft = true → p ∉ feedPosts posts true) ∧
    (p ∈ posts → p ∈ feedPosts posts false ∧ toFeedItem p ∈ buildFeed posts false) ∧
    (∀ q ∈ feedPosts posts true, q.draft = false) := by
  have hmem : ∀ q : PostRecord, q ∈ feedPosts posts true ↔ q ∈ posts ∧ q.draft = false := by
    intro q
    simp [feedPosts, draftFilter, mem_sortByDateDesc, List.mem_filter]
  refine ⟨?_, ?_, ?_⟩
  · intro hd hq
    rw [hmem] at hq
    rw [hq.2] at hd
    exact Bool.false_ne_true hd
  · intro hp
    have h1 : p ∈ feedPosts posts false := by
      simp [feedPosts, draftFilter, mem_sortByDateDesc, hp]
    exact ⟨h1, List.mem_map_of_mem toFeedItem h1⟩
  · intro q hq
    exact ((hmem q).mp hq).2

/-- Closed instance of the draft-exclusion theorem at a concrete draft post:
it is absent from the production feed and present outside production. -/
theorem draft_excluded_production_witness :
    postDraft ∉ feedPosts [postDraft] true ∧ postDraft ∈ feedPosts [postDraft] false :=
  ⟨(draft_excluded_production [postDraft] postDraft).1 rfl,
    ((draft_excluded_production [postDraft] postDraft).2.1 (by simp)).1⟩

/-- C4: the feed items are in weakly descending date order, posts of equal
date keep their original (post-filter) order, and for the concrete posts
dated 2024-01-01, 2024-06-15 and 2024-03-15 the feed order is June, March,
January. -/
theorem feed_sorted_desc (posts : List PostRecord) (isProduction : Bool) (d : Int) :
    List.Pairwise (fun x y => y.pubDate ≤ x.pubDate) (buildFeed posts isProduction) ∧
    (feedPosts posts isProduction).filter (fun q => decide (q.date = d)) =
      (draftFilter isProduction posts).filter (fun q => decide (q.date = d)) ∧
    buildFeed [postJan2024, postJun2024, postMar2024] true =
      [toFeedItem postJun2024, toFeedItem postMar2024, toFeedItem postJan2024] := by
  refine ⟨?_, filter_sortByDateDesc d _, by decide⟩
  rw [buildFeed, List.pairwise_map]
  have := pairwise_sortByDateDesc (draftFilter isProduction posts)
  exact this.imp (fun h => by simpa [toFeedItem] using h)

/-- C5: a feed item's description is the excerpt when present, else the
description when present, else empty; missing categories become the empty
list; a missing author becomes the site fallback author. -/
theorem feed_item_defaults (post : PostRecord) :
    (∀ e, post.excerpt = some e → (toFeedItem post).description = e) ∧
    (post.excerpt = none →
      ∀ dsc, post.description = some dsc → (toFeedItem post).description = dsc) ∧
    (post.excerpt = none → post.description = none → (toFeedItem post).description = "") ∧
    (post.categories = none → (toFeedItem post).categories = []) ∧
    (post.author = none → (toFeedItem post).author = SITE_author) := by
  refine ⟨?_, ?_, ?_, ?_, ?_⟩ <;> intros <;> simp_all [toFeedItem]

/-- Closed instance of the feed-item default theorem at a post with a
description but no excerpt, no categories and no author. -/
theorem feed_item_defaults_witness :
    (toFeedItem postJan2024).description = "January post" ∧
    (toFeedItem postJan2024).categories = [] ∧
    (toFeedItem postJan2024).author = SITE_author :=
  ⟨(feed_item_defaults postJan2024).2.1 rfl "January post" rfl,
    (feed_item_defaults postJan2024).2.2.2.1 rfl,
    (feed_item_defaults postJan2024).2.2.2.2 rfl⟩

/-- The four form statuses of ContactForm.tsx line 82. -/
inductive FormStatus
  | idle
  | submitting
  | success
  | error
deriving DecidableEq

/-- The four form fields (ContactForm.tsx lines 63-68). -/
structure FormData where
  name : List Char
  email : List Char
  service : List Char
  message : List Char
deriving DecidableEq

/-- Per-field touched flags (ContactForm.tsx lines 76-80). -/
structure TouchedFields where
  name : Bool
  email : Bool
  message : Bool
deriving DecidableEq

/-- Per-field validation errors (ContactForm.tsx lines 70-74). -/
structure FormErrors where
  name : Option String
  email : Option String
  message : Option String
deriving DecidableEq

/-- The five campaign-attribution values captured from the page URL on mount
(ContactForm.tsx lines 123-129); an absent query parameter is captured as
the empty string via `params.get(key) || ""`. -/
structure UtmFields where
  utm_source : List Char
  utm_medium : List Char
  utm_campaign : List Char
  utm_term : List Char
  utm_content : List Char
deriving DecidableEq

/-- The component's state relevant to submission. -/
structure ComponentState where
  formData : FormData
  errors : FormErrors
  touched : TouchedFields
  status : FormStatus
  errorMessage : String
  errorAnnouncement : String
  utmFields : UtmFields
deriving DecidableEq

/-- The errors `validateForm` computes (ContactForm.tsx lines 232-241):
`validateField` on each of the three required fields. -/
def formErrors (fd : FormData) : FormErrors :=
  { name := validateName fd.name
    email := validateEmail fd.email
    message := validateMessage fd.message }

/-- The boolean `validateForm` returns: no field error is defined. -/
def formValid (fd : FormData) : Bool :=
  (formErrors fd).name.isNone && (formErrors fd).email.isNone &&
    (formErrors fd).message.isNone

/-- The aggregate error count announced on a blocked submit
(ContactForm.tsx line 291): the number of defined field errors. -/
def errorCount (fd : FormData) : Nat :=
  [(formErrors fd).name, (formErrors fd).email, (formErrors fd).message].countP Option.isSome

/-- The screen-reader announcement for a blocked submit
(ContactForm.tsx lines 292-294). -/
def errorAnnouncementText (n : Nat) : String :=
  if n = 1 then "There is 1 error in the form. Please correct it before submitting."
  else "There are " ++ toString n ++ " errors in the form. Please correct them before submitting."

/-- The banner message set when the request fails (ContactForm.tsx line 348). -/
def submitFailureMessage : String :=
  "Something went wrong. Please try again or email us directly."

/-- One optional JSON entry: the loop body `if (value) payload[key] = value`
(ContactForm.tsx lines 320-322) — a JS string is truthy exactly when it is
non-empty. -/
def optEntry (key : String) (value : List Char) : List (String × List Char) :=
  if value = [] then [] else [(key, value)]

/-- The JSON payload of the outbound POST (ContactForm.tsx lines 312-322):
the four form fields, then each UTM entry whose captured value is non-empty,
in `Object.entries` insertion order. -/
def buildPayload (fd : FormData) (utm : UtmFields) : List (String × List Char) :=
  [("name", fd.name), ("email", fd.email), ("service", fd.service), ("message", fd.message)]
    ++ optEntry "utm_source" utm.utm_source
    ++ optEntry "utm_medium" utm.utm_medium
    ++ optEntry "utm_campaign" utm.utm_campaign
    ++ optEntry "utm_term" utm.utm_term
    ++ optEntry "utm_content" utm.utm_content

/-- The name of the concealed honeypot input rendered in the form markup
(ContactForm.tsx line 386). -/
def honeypotFieldName : String := "_gotcha"

/-- Possible resolutions of the awaited `fetch` call: a response with `ok`
true, a response with `ok` false, or a rejected promise (network failure). -/
inductive FetchOutcome
  | okResponse
  | httpError
  | networkFailure
deriving DecidableEq

/-- Observable result of one `handleSubmit` run: the outbound requests
issued, the status while a request is in flight (`none` when no request is
made), the component state after the handler finishes, and the scheduled
redirect delay in milliseconds, if any. -/
structure SubmitTrace where
  requests : List (List (String × List Char))
  midStatus : Option FormStatus
  final : ComponentState
  redirectDelayMs : Option Nat
deriving DecidableEq

/-- The submit handler (ContactForm.tsx lines 276-358): mark all fields
touched and validate; when invalid, announce the aggregate error count and
return without any request; when valid, set status `submitting`, clear the
messages, send one POST with the JSON payload, then on an ok response set
status `success` and schedule a 1500 ms redirect (lines 334-342), and
otherwise set status `error` with the retry banner message (lines 346-355). -/
def handleSubmit (st : ComponentState) (outcome : FetchOutcome) : SubmitTrace :=
  let errs := formErrors st.formData
  let touchedAll : TouchedFields := { name := true, email := true, message := true }
  if formValid st.formData then
    let payload := buildPayload st.formData st.utmFields
    let mid : ComponentState :=
      { st with
          touched := touchedAll
          errors := errs
          status := FormStatus.submitting
          errorMessage := ""
          errorAnnouncement := "" }
    match outcome with
    | FetchOutcome.okResponse =>
      { requests := [payload], midStatus := some FormStatus.submitting,
        final := { mid with status := FormStatus.success },
        redirectDelayMs := some 1500 }
    | _ =>
      { requests := [payload], midStatus := some FormStatus.submitting,
        final := { mid with status := FormStatus.error, errorMessage := submitFailureMessage },
        redirectDelayMs := none }
  else
    { requests := [], midStatus := none,
      final :=
        { st with
            touched := touchedAll
            errors := errs
            errorAnnouncement := errorAnnouncementText (errorCount st.formData) },
      redirectDelayMs := none }

/-- The submit button is disabled exactly while the status is `submitting`
(ContactForm.tsx line 702). -/
def submitDisabled (status : FormStatus) : Bool :=
  status == FormStatus.submitting

/-- The success confirmation block is rendered exactly when the status is
`success` (ContactForm.tsx line 675). -/
def successConfirmationShown (st : ComponentState) : Bool :=
  st.status == FormStatus.success

/-- The error banner is rendered exactly when the status is `error`
(ContactForm.tsx line 688). -/
def errorBannerShown (st : ComponentState) : Bool :=
  st.status == FormStatus.error

theorem errorCount_pos {fd : FormData} (h : formValid fd = false) : 1 ≤ errorCount fd := by
  unfold formValid at h
  unfold errorCount
  rcases hn : (formErrors fd).name with _ | v <;>
    rcases he : (formErrors fd).email with _ | w <;>
      rcases hm : (formErrors fd).message with _ | x <;>
        simp_all [List.countP_cons]

theorem mem_optEntry {k k' : String} {v v' : List Char} :
    (k', v') ∈ optEntry k v ↔ v ≠ [] ∧ k' = k ∧ v' = v := by
  unfold optEntry
  split_ifs with h <;> simp [h]

theorem map_fst_optEntry {k : String} {v : List Char} :
    (optEntry k v).map Prod.fst = if v = [] then [] else [k] := by
  unfold optEntry
  split_ifs <;> simp

/-- Form data that passes all three required validations. -/
def validFormData : FormData :=
  { name := "Jane".data
    email := "jane@example.com".data
    service := []
    message := "Please help me with my site.".data }

/-- Empty form data: all three required validations fail. -/
def emptyFormData : FormData :=
  { name := [], email := [], service := [], message := [] }

/-- Sample captured UTM values: two present, three absent. -/
def utmSample : UtmFields :=
  { utm_source := "news".data
    utm_medium := []
    utm_campaign := "spring".data
    utm_term := []
    utm_content := [] }

/-- An idle component state holding valid form data. -/
def stValid : ComponentState :=
  { formData := validFormData
    errors := { name := none, email := none, message := none }
    touched := { name := false, email := false, message := false }
    status := FormStatus.idle
    errorMessage := ""
    errorAnnouncement := ""
    utmFields := utmSample }

/-- An idle component state holding empty (invalid) form data. -/
def stInvalid : ComponentState :=
  { stValid with formData := emptyFormData }

/-- C6: when all three required fields validate, exactly one request is
issued and the submit control is disabled from the moment the request is in
flight until it resolves; when any required field fails, no request is
issued, all three fields are marked touched, and the aggregate error count
(at least one) is announced. -/
theorem submit_gating (st : ComponentState) (outcome : FetchOutcome) :
    (formValid st.formData = true →
      (handleSubmit st outcome).requests.length = 1 ∧
      (handleSubmit st outcome).midStatus = some FormStatus.submitting ∧
      submitDisabled FormStatus.submitting = true ∧
      submitDisabled (handleSubmit st outcome).final.status = false) ∧
    (formValid st.formData = false →
      (handleSubmit st outcome).requests = [] ∧
      (handleSubmit st outcome).final.touched = { name := true, email := true, message := true } ∧
      (handleSubmit st outcome).final.errorAnnouncement =
        errorAnnouncementText (errorCount st.formData) ∧
      1 ≤ errorCount st.formData) := by
  constructor
  · intro h
    unfold handleSubmit
    rw [if_pos h]
    cases outcome <;> simp [submitDisabled]
  · intro h
    unfold handleSubmit
    rw [if_neg (by simp [h])]
    exact ⟨rfl, rfl, rfl, errorCount_pos h⟩

/-- Closed instance of the submit-gating theorem: the valid state issues one
request; the empty state issues none and announces its three errors. -/
theorem submit_gating_witness :
    (handleSubmit stValid FetchOutcome.okResponse).requests.length = 1 ∧
    (handleSubmit stInvalid FetchOutcome.okResponse).requests = [] :=
  ⟨((submit_gating stValid FetchOutcome.okResponse).1 (by decide)).1,
    ((submit_gating stInvalid FetchOutcome.okResponse).2 (by decide)).1⟩

/-- C7 counterexample: a fully valid submission issues its single request,
yet the JSON body contains no honeypot entry — the `_gotcha` field exists
only as a concealed input in the form markup, while `handleSubmit` builds
the payload from the form fields and UTM values alone (ContactForm.tsx
lines 310-332), so the body the claim describes carries no honeypot field. -/
theorem payload_honeypot_counterexample :
    formValid stValid.formData = true ∧
    (handleSubmit stValid FetchOutcome.okResponse).requests =
      [buildPayload stValid.formData stValid.utmFields] ∧
    honeypotFieldName ∉ (buildPayload stValid.formData stValid.utmFields).map Prod.fst := by
  decide

/-- C7 (amended): every validated submission issues exactly one request,
whose JSON body holds the four form fields and exactly those UTM entries
whose captured value is non-empty; the concealed honeypot field is not part
of this JSON body. -/
theorem payload_contents (st : ComponentState) (outcome : FetchOutcome)
    (h : formValid st.formData = true) :
    (handleSubmit st outcome).requests = [buildPayload st.formData st.utmFields] ∧
    ("name", st.formData.name) ∈ buildPayload st.formData st.utmFields ∧
    ("email", st.formData.email) ∈ buildPayload st.formData st.utmFields ∧
    ("service", st.formData.service) ∈ buildPayload st.formData st.utmFields ∧
    ("message", st.formData.message) ∈ buildPayload st.formData st.utmFields ∧
    (("utm_source", st.utmFields.utm_source) ∈ buildPayload st.formData st.utmFields ↔
      st.utmFields.utm_source ≠ []) ∧
    (("utm_medium", st.utmFields.utm_medium) ∈ buildPayload st.formData st.utmFields ↔
      st.utmFields.utm_medium ≠ []) ∧
    (("utm_campaign", st.utmFields.utm_campaign) ∈ buildPayload st.formData st.utmFields ↔
      st.utmFields.utm_campaign ≠ []) ∧
    (("utm_term", st.utmFields.utm_term) ∈ buildPayload st.formData st.utmFields ↔
      st.utmFields.utm_term ≠ []) ∧
    (("utm_content", st.utmFields.utm_content) ∈ buildPayload st.formData st.utmFields ↔
      st.utmFields.utm_content ≠ []) ∧
    honeypotFieldName ∉ (buildPayload st.formData st.utmFields).map Prod.fst := by
  refine ⟨?_, ?_⟩
  · unfold handleSubmit
    rw [if_pos h]
    cases outcome <;> rfl
  refine ⟨by simp [buildPayload], by simp [buildPayload], by simp [buildPayload],
    by simp [buildPayload], ?_, ?_, ?_, ?_, ?_, ?_⟩
  · simp [buildPayload, mem_optEntry]
  · simp [buildPayload, mem_optEntry]
  · simp [buildPayload, mem_optEntry]
  · simp [buildPayload, mem_optEntry]
  · simp [buildPayload, mem_optEntry]
  · simp only [buildPayload, List.map_append, map_fst_optEntry, honeypotFieldName,
      List.map_cons, List.map_nil]
    split_ifs <;> decide

/-- Closed instance of the payload theorem: the valid state's single request
holds the two non-empty UTM values and not the empty ones. -/
theorem payload_contents_witness :
    ("utm_source", utmSample.utm_source) ∈ buildPayload validFormData utmSample ∧
    ("name", validFormData.name) ∈ buildPayload validFormData utmSample :=
  ⟨((payload_contents stValid FetchOutcome.okResponse (by decide)).2.2.2.2.2.1).mpr (by decide),
    (payload_contents stValid FetchOutcome.okResponse (by decide)).2.1⟩

/-- C8: once a validated submission is in flight, an ok response yields
status `success` with the visible confirmation and a redirect scheduled
after 1500 ms; a non-ok response or a network failure yields status `error`
with the retry banner message, no redirect, a re-enabled submit control, and
still only the single request of this click. -/
theorem submit_resolution (st : ComponentState) (outcome : FetchOutcome)
    (h : formValid st.formData = true) :
    (handleSubmit st outcome).midStatus = some FormStatus.submitting ∧
    (outcome = FetchOutcome.okResponse →
      (handleSubmit st outcome).final.status = FormStatus.success ∧
      successConfirmationShown (handleSubmit st outcome).final = true ∧
      (handleSubmit st outcome).redirectDelayMs = some 1500) ∧
    (outcome ≠ FetchOutcome.okResponse →
      (handleSubmit st outcome).final.status = FormStatus.error ∧
      (handleSubmit st outcome).final.errorMessage = submitFailureMessage ∧
      errorBannerShown (handleSubmit st outcome).final = true ∧
      submitDisabled (handleSubmit st outcome).final.status = false ∧
      (handleSubmit st outcome).redirectDelayMs = none ∧
      (handleSubmit st outcome).requests.length = 1) := by
  unfold handleSubmit
  rw [if_pos h]
  cases outcome <;>
    simp [successConfirmationShown, errorBannerShown, submitDisabled]

/-- Closed instance of the resolution theorem: success path schedules the
1500 ms redirect; the network-failure path sets the error status. -/
theorem submit_resolution_witness :
    (handleSubmit stValid FetchOutcome.okResponse).redirectDelayMs = some 1500 ∧
    (handleSubmit stValid FetchOutcome.networkFailure).final.status = FormStatus.error :=
  ⟨((submit_resolution stValid FetchOutcome.okResponse (by decide)).2.1 rfl).2.2,
    ((submit_resolution stValid FetchOutcome.networkFailure (by decide)).2.2 (by decide)).1⟩

/-- OG image width in pixels (part_011 line 25). -/
def WIDTH : Nat := 1200

/-- OG image height in pixels (part_011 line 26). -/
def HEIGHT : Nat := 630

/-- Brand colors of the OG endpoint (part_011 lines 29-35). -/
def COLORS_background : String := "#0a0e14"

/-- Brand primary color. -/
def COLORS_primary : String := "#059669"

/-- Brand text color. -/
def COLORS_text : String := "#ffffff"

/-- Brand muted text color. -/
def COLORS_textMuted : String := "#a1a1aa"

/-- Brand accent color. -/
def COLORS_accent : String := "#1a1f2e"

/-- A satori markup node: an element with style attributes and children, or
a text leaf. -/
inductive OgNode where
  | element (style : List (String × String)) (children : List OgNode)
  | text (s : String)

/-- The stepped title font size (part_011 line 84):
`title.length > 60 ? 48 : title.length > 40 ? 56 : 64`. -/
def ogFontSize (titleLength : Nat) : Nat :=
  if titleLength > 60 then 48 else if titleLength > 40 then 56 else 64

/-- The hostname of an absolute URL as `new URL(u).hostname` yields it for
the simple URLs used here: the text after the scheme separator up to the
next slash. -/
def urlHostname (u : String) : String :=
  match splitFirst ':' u.data with
  | none => ""
  | some (_, rest) => String.mk ((rest.drop 2).takeWhile (fun c => c ≠ '/'))

/-- The OG image markup `createOgImage` (part_011 lines 83-235): a column
with the category badge on top, the title in the middle at the stepped font
size, and the branding footer (brand bar, site title and tagline, hostname). -/
def createOgImage (title : String) (category : String) : OgNode :=
  OgNode.element
    [("height", "100%"), ("width", "100%"), ("display", "flex"),
      ("flexDirection", "column"), ("justifyContent", "space-between"),
      ("backgroundColor", COLORS_background), ("padding", "60px"),
      ("fontFamily", "Inter")]
    [OgNode.element [("display", "flex"), ("alignItems", "center")]
      [OgNode.element
        [("backgroundColor", COLORS_accent), ("borderRadius", "8px"),
          ("padding", "8px 16px"), ("color", COLORS_primary),
          ("fontSize", "20px"), ("fontWeight", "600"),
          ("textTransform", "uppercase"), ("letterSpacing", "0.05em")]
        [OgNode.text category]],
    OgNode.element
      [("display", "flex"), ("flexDirection", "column"), ("flex", "1"),
        ("justifyContent", "center"), ("paddingRight", "40px")]
      [OgNode.element
        [("fontSize", toString (ogFontSize title.length) ++ "px"),
          ("fontWeight", "700"), ("color", COLORS_text),
          ("lineHeight", "1.2"), ("letterSpacing", "-0.02em")]
        [OgNode.text title]],
    OgNode.element
      [("display", "flex"), ("alignItems", "center"),
        ("justifyContent", "space-between")]
      [OgNode.element [("display", "flex"), ("alignItems", "center"), ("gap", "12px")]
        [OgNode.element
          [("width", "4px"), ("height", "40px"),
            ("backgroundColor", COLORS_primary), ("borderRadius", "2px")] [],
        OgNode.element [("display", "flex"), ("flexDirection", "column")]
          [OgNode.element
            [("fontSize", "24px"), ("fontWeight", "700"),
              ("color", COLORS_text), ("letterSpacing", "0.05em")]
            [OgNode.text SITE_title],
          OgNode.element [("fontSize", "16px"), ("color", COLORS_textMuted)]
            [OgNode.text SITE_tagline]]],
      OgNode.element [("fontSize", "18px"), ("color", COLORS_textMuted)]
        [OgNode.text (urlHostname SITE_url)]]]

/-- Style-attribute membership in an element's style list. -/
def styleMem (p : String × String) : List (String × String) → Bool
  | [] => false
  | q :: qs => (q.1 == p.1 && q.2 == p.2) || styleMem p qs

mutual

/-- Whether the markup contains a given text leaf. -/
def containsText (t : String) : OgNode → Bool
  | OgNode.text s => s == t
  | OgNode.element _ children => containsTextList t children

/-- List version of `containsText`. -/
def containsTextList (t : String) : List OgNode → Bool
  | [] => false
  | n :: ns => containsText t n || containsTextList t ns

end

mutual

/-- Whether some element of the markup carries the given style attribute and
contains the given text among its children. -/
def hasStyledText (p : String × String) (t : String) : OgNode → Bool
  | OgNode.text _ => false
  | OgNode.element styles children =>
    (styleMem p styles && containsTextList t children) || hasStyledTextList p t children

/-- List version of `hasStyledText`. -/
def hasStyledTextList (p : String × String) (t : String) : List OgNode → Bool
  | [] => false
  | n :: ns => hasStyledText p t n || hasStyledTextList p t ns

end

/-- The build-time response of the OG `GET` endpoint (part_011 lines
240-299): satori renders `createOgImage title category` at the configured
width and height, resvg rasterizes fitting to the same width, and the bytes
are returned as a 200 `image/png` response; the rendering libraries are
external collaborators, modelled by the options the code passes them. -/
structure OgResponse where
  status : Nat
  contentType : String
  imageWidth : Nat
  imageHeight : Nat
  markup : OgNode

/-- The OG `GET` handler's observable output for a title and category. -/
def renderOgImage (title : String) (category : String) : OgResponse :=
  { status := 200
    contentType := "image/png"
    imageWidth := WIDTH
    imageHeight := HEIGHT
    markup := createOgImage title category }

/-- C9: the rendered social image is 1200×630, served as PNG, and its markup
carries the category badge text, the title at the stepped font size, and the
branding footer; the font size steps down monotonically: 64px up to 40
characters, 56px up to 60, 48px above. -/
theorem og_image_contract (title category : String) :
    (renderOgImage title category).imageWidth = 1200 ∧
    (renderOgImage title category).imageHeight = 630 ∧
    (renderOgImage title category).contentType = "image/png" ∧
    containsText category (renderOgImage title category).markup = true ∧
    hasStyledText ("fontSize", toString (ogFontSize title.length) ++ "px") title
      (renderOgImage title category).markup = true ∧
    containsText SITE_title (renderOgImage title category).markup = true ∧
    (title.length ≤ 40 → ogFontSize title.length = 64) ∧
    (40 < title.length → title.length ≤ 60 → ogFontSize title.length = 56) ∧
    (60 < title.length → ogFontSize title.length = 48) ∧
    (∀ m n : Nat, m ≤ n → ogFontSize n ≤ ogFontSize m) := by
  refine ⟨rfl, rfl, rfl, ?_, ?_, ?_, ?_, ?_, ?_, ?_⟩
  · simp [renderOgImage, createOgImage, containsText, containsTextList]
  · simp [renderOgImage, createOgImage, hasStyledText, hasStyledTextList,
      styleMem, containsText, containsTextList]
  · simp [renderOgImage, createOgImage, containsText, containsTextList]
  · intro h; unfold ogFontSize; split_ifs <;> omega
  · intro h1 h2; unfold ogFontSize; split_ifs <;> omega
  · intro h; unfold ogFontSize; split_ifs <;> omega
  · intro m n hmn; unfold ogFontSize; split_ifs <;> omega

/-- Closed instance of the OG-image theorem: a 15-character title renders at
64px, and the category text appears in the markup. -/
theorem og_image_contract_witness :
    ogFontSize ("Getting Started".length) = 64 ∧
    containsText "Insights" (renderOgImage "Blog" "Insights").markup = true :=
  ⟨(og_image_contract "Getting Started" "Insights").2.2.2.2.2.2.1 (by decide),
    (og_image_contract "Blog" "Insights").2.2.2.1⟩

/-- A generated OG static path: the slug parameter and, for blog paths, the
underlying post (part_011 lines 67-75). -/
structure OgPath where
  slug : String
  isStaticPage : Bool
  post : Option PostRecord
deriving DecidableEq

/-- The seven static pages of part_011 lines 51-59, as (slug, title,
category) triples. -/
def STATIC_PAGES : List (String × String × String) :=
  [("home", "Home", SITE_tagline),
    ("about", "About Us", "Company"),
    ("services", "Our Services", "Services"),
    ("contact", "Contact Us", "Contact"),
    ("pricing", "Pricing", "Plans"),
    ("blog", "Blog", "Insights"),
    ("privacy", "Privacy Policy", "Legal")]

/-- `getStaticPaths` of the OG endpoint (part_011 lines 64-78): blog paths
come from `getCollection('blog', ({ data }) => !data.draft)` — this draft
filter is unconditional and never consults `import.meta.env.PROD`, which the
ignored build-mode argument makes explicit — followed by the static pages. -/
def ogStaticPaths (_isProduction : Bool) (posts : List PostRecord) : List OgPath :=
  (posts.filter (fun p => !p.draft)).map
      (fun p => { slug := "blog/" ++ p.slug, isStaticPage := false, post := some p })
    ++ STATIC_PAGES.map
      (fun pg => { slug := pg.1, isStaticPage := true, post := none })

/-- C10: a draft post never receives a generated OG path, in any build mode,
whereas the feed outside production does include that draft. -/
theorem og_paths_exclude_drafts (mode : Bool) (posts : List PostRecord) (p : PostRecord)
    (hmem : p ∈ posts) (hdraft : p.draft = true) :
    (∀ path ∈ ogStaticPaths mode posts, path.post ≠ some p) ∧
    p ∈ feedPosts posts false := by
  constructor
  · intro path hpath
    rcases List.mem_append.mp hpath with hblog | hstatic
    · obtain ⟨q, hq, rfl⟩ := List.mem_map.mp hblog
      have hqd : q.draft = false := by
        have h2 := (List.mem_filter.mp hq).2
        simpa using h2
      intro hcontra
      simp only [Option.some.injEq] at hcontra
      rw [hcontra, hdraft] at hqd
      exact Bool.false_ne_true hqd.symm
    · obtain ⟨pg, hpg, rfl⟩ := List.mem_map.mp hstatic
      simp
  · simp [feedPosts, draftFilter, mem_sortByDateDesc, hmem]

/-- Closed instance of the OG-path theorem at a concrete draft post: the
"home" static path does not carry it, and the non-production feed does. -/
theorem og_paths_exclude_drafts_witness :
    ({ slug := "home", isStaticPage := true, post := none } : OgPath).post ≠ some postDraft ∧
    postDraft ∈ feedPosts [postDraft] false :=
  ⟨(og_paths_exclude_drafts true [postDraft] postDraft (by simp) rfl).1 _ (by decide),
    (og_paths_exclude_drafts true [postDraft] postDraft (by simp) rfl).2⟩

end AstroStarter
